import Mathlib

/-!
Verification of the quota-enforcement and metrics-aggregation core.

Shallow embedding of:
  - `src/lib/rate-limit.ts` (like / post / fetch quota policies over the
    device-local counter store), and
  - `computeMetrics` from `src/app/admin/dashboard/metrics/page.tsx`
    (the Metrics Aggregator).

Modelling conventions:
  - JS timestamps (milliseconds) are `Int`.
  - The result of `new Date(s).getTime()` is `Option Int`: `some t` for a
    parseable date string, `none` standing for `NaN`.  The NaN-propagating
    arithmetic and always-false NaN comparisons of JS are mirrored by the
    `nadd`/`nsub`/`nltB`/`ngeB`/`ngtB` helpers below.
  - JS `filter(Boolean)` on pseudo-ids drops both `null` and the empty
    string; `truthyId` mirrors this.
  - JS objects used as string-keyed maps are association lists
    (`List (String × _)`); a `Set` is modelled through `List.dedup`
    (same membership and size; JS Set iteration order is first-insertion,
    but every use below is order-insensitive, and `Object` key iteration
    order only feeds commutative accumulations).
  - Floating-point division/rounding of the aggregator is modelled in `ℚ`
    (`Math.round` is round-half-up, matching Mathlib's `round`).
-/

/-- Parse result of `new Date(s).getTime()`: `none` models `NaN`. -/
abbrev TVal := Option Int

/-- JS `a - b` where either side may be `NaN`. -/
def nsub : TVal → TVal → TVal
  | some a, some b => some (a - b)
  | _, _ => none

/-- JS `a + b` where either side may be `NaN`. -/
def nadd : TVal → TVal → TVal
  | some a, some b => some (a + b)
  | _, _ => none

/-- JS `a < b`: false when either side is `NaN`. -/
def nltB : TVal → TVal → Bool
  | some a, some b => a < b
  | _, _ => false

/-- JS `a > b`: false when either side is `NaN`. -/
def ngtB : TVal → TVal → Bool
  | some a, some b => b < a
  | _, _ => false

/-- JS `a >= b`: false when either side is `NaN`. -/
def ngeB : TVal → TVal → Bool
  | some a, some b => b ≤ a
  | _, _ => false

/-- JS truthiness filter on a nullable pseudo-id (`filter(Boolean)`):
`null` and the empty string are dropped. -/
def truthyId : Option String → Option String
  | some u => if u = "" then none else some u
  | none => none

/-- JS `Math.round(x * 10) / 10` (round half-up to one decimal). -/
def round1 (x : ℚ) : ℚ := (round (x * 10) : ℚ) / 10

/-- JS `Math.round(x * 100) / 100` (round half-up to two decimals). -/
def round2 (x : ℚ) : ℚ := (round (x * 100) : ℚ) / 100

namespace RateLimit

/-- Configuration constant `LIKE_LIMIT_PER_POST` from `rate-limit.ts`. -/
def LIKE_LIMIT_PER_POST : Int := 5

/-- Configuration constant `POST_LIMIT` from `rate-limit.ts`. -/
def POST_LIMIT : Nat := 3

/-- Configuration constant `POST_WINDOW_MS` from `rate-limit.ts`. -/
def POST_WINDOW_MS : Int := 10 * 60 * 1000

/-- Configuration constant `FETCH_COOLDOWN_MS` from `rate-limit.ts`. -/
def FETCH_COOLDOWN_MS : Int := 3000

/-- The device-local counter store (`localStorage` keys `sg_likes`,
`sg_post_times`, `sg_last_fetch`).  `lastFetch = none` models an absent
key, read back as `0` by `getJSON(LAST_FETCH, 0)`. -/
structure Store where
  likes : List (String × Int)
  postTimes : List Int
  lastFetch : Option Int
deriving DecidableEq

/-- JS `likes[postId] = v` on a string-keyed object: replace the value if
the key is present, append the key otherwise. -/
def setKey (m : List (String × Int)) (k : String) (v : Int) :
    List (String × Int) :=
  match m with
  | [] => [(k, v)]
  | (k₀, v₀) :: rest =>
      if k₀ = k then (k₀, v) :: rest else (k₀, v₀) :: setKey rest k v

/-- Embedding of `getLikesGiven`: `likes[postId] ?? 0`. -/
def getLikesGiven (s : Store) (postId : String) : Int :=
  (s.likes.lookup postId).getD 0

/-- Embedding of `remainingLikes`: `Math.max(0, LIKE_LIMIT_PER_POST - given)`. -/
def remainingLikes (s : Store) (postId : String) : Int :=
  max 0 (LIKE_LIMIT_PER_POST - getLikesGiven s postId)

/-- Embedding of `canLikePost`: `given < LIKE_LIMIT_PER_POST`. -/
def canLikePost (s : Store) (postId : String) : Bool :=
  getLikesGiven s postId < LIKE_LIMIT_PER_POST

/-- Embedding of `recordLike`: on rejection return `false` and leave the
store unchanged; otherwise increment this post's counter and return
`true`.  Only the `sg_likes` key is written. -/
def recordLike (s : Store) (postId : String) : Bool × Store :=
  if ¬ canLikePost s postId then (false, s)
  else
    (true, { s with likes := setKey s.likes postId (getLikesGiven s postId + 1) })

/-- Embedding of `getRecentPostTimes`: keep the timestamps with
`now - t < POST_WINDOW_MS`. -/
def getRecentPostTimes (times : List Int) (now : Int) : List Int :=
  times.filter (fun t => now - t < POST_WINDOW_MS)

/-- Embedding of `canPost` (result is `(allowed, waitSeconds)`).  The
`none` branch of `min?` is unreachable in the source: when the pruned
list has length ≥ `POST_LIMIT` it is nonempty. -/
def canPost (times : List Int) (now : Int) : Bool × Int :=
  let recent := getRecentPostTimes times now
  if recent.length < POST_LIMIT then (true, 0)
  else
    match recent.min? with
    | some oldest => (false, ⌈((POST_WINDOW_MS - (now - oldest) : Int) : ℚ) / 1000⌉)
    | none => (true, 0)

/-- Embedding of `recordPost`: store the pruned list with `now` appended,
with no re-check of the limit. -/
def recordPost (times : List Int) (now : Int) : List Int :=
  getRecentPostTimes times now ++ [now]

/-- Embedding of `postsRemaining`. -/
def postsRemaining (times : List Int) (now : Int) : Int :=
  max 0 ((POST_LIMIT : Int) - (getRecentPostTimes times now).length)

/-- Embedding of `canFetch`: `now - (stored ?? 0) ≥ FETCH_COOLDOWN_MS`. -/
def canFetch (lastFetch : Option Int) (now : Int) : Bool :=
  now - lastFetch.getD 0 ≥ FETCH_COOLDOWN_MS

/-- Embedding of `recordFetch`: unconditionally overwrite the single
last-fetch timestamp. -/
def recordFetch (s : Store) (now : Int) : Store :=
  { s with lastFetch := some now }

/-- A caller following the check-then-record discipline: record only when
`canPost` allows at the same instant (the discipline the spec expects of
callers of the advisory `recordPost`). -/
def guardedAttempt (times : List Int) (now : Int) : List Int :=
  if (canPost times now).1 then recordPost times now else times

/-- Stored timestamp sequence after a list of disciplined post attempts,
starting from a fresh device (empty store). -/
def runGuarded (attempts : List Int) : List Int :=
  attempts.foldl guardedAttempt []

/-- Stored timestamp sequence after a list of unguarded `recordPost`
calls, starting from a fresh device. -/
def runUnguarded (attempts : List Int) : List Int :=
  attempts.foldl recordPost []

/-- Modelled from the claim's words for C5: prune exactly the stored
timestamps strictly older than `now − POST_WINDOW_MS` (keep `t` with
`t ≥ now − POST_WINDOW_MS`), then decide as `canPost` does. -/
def claimCanPost (times : List Int) (now : Int) : Bool × Int :=
  let surviving := times.filter (fun t => now - POST_WINDOW_MS ≤ t)
  if surviving.length < POST_LIMIT then (true, 0)
  else
    match surviving.min? with
    | some oldest => (false, ⌈((POST_WINDOW_MS - (now - oldest) : Int) : ℚ) / 1000⌉)
    | none => (true, 0)

end RateLimit

namespace Metrics

/-- Row of `analytics_events` as the dashboard reads it; `created_at_ms`
is the result of `new Date(created_at).getTime()` (`none` = `NaN`). -/
structure RawEvent where
  id : String
  event_name : String
  user_pseudo_id : Option String
  created_at_ms : TVal
deriving DecidableEq

/-- Row of `feedback` as the dashboard reads it. -/
structure RawFeedback where
  rating : String
deriving DecidableEq

/-- Row of `posts` as the dashboard reads it; `likes` is nullable at
runtime (the source guards with `?? 0`). -/
structure RawPost where
  likes : Option Int
deriving DecidableEq

/-- The metrics snapshot returned by `computeMetrics`.  Rates are exact
rationals; `avgSessionLengthMin` is `Option ℚ` because it is the one
field whose JS computation can produce `NaN` (modelled as `none`). -/
structure MetricsSnapshot where
  uniqueVisits : Nat
  activationRate : ℚ
  activationGoalMet : Bool
  totalQrScans : Nat
  dau : Nat
  totalPosts : Nat
  totalLikes : Int
  totalShares : Nat
  engagementRate : ℚ
  avgSessionLengthMin : Option ℚ
  churnRate : ℚ
  day1Retention : ℚ
  viralCoefficient : ℚ
  npsScore : Int
  npsThresholdMet : Bool
  happyCount : Nat
  normalCount : Nat
  sadCount : Nat
  totalFeedback : Nat
deriving DecidableEq

/-- Time constant `MS_24H` of `computeMetrics`. -/
def MS_24H : Int := 24 * 60 * 60 * 1000

/-- Time constant `MS_48H` of `computeMetrics`. -/
def MS_48H : Int := 48 * 60 * 60 * 1000

/-- Time constant `MS_7D` of `computeMetrics`. -/
def MS_7D : Int := 7 * 24 * 60 * 60 * 1000

/-- Time constant `MS_8D` of `computeMetrics`. -/
def MS_8D : Int := 8 * 24 * 60 * 60 * 1000

/-- Time constant `SESSION_GAP` of `computeMetrics`. -/
def SESSION_GAP : Int := 30 * 60 * 1000

/-- Truthy pseudo-ids of a list of events, in order, duplicates kept:
`events.map(e => e.user_pseudo_id).filter(Boolean)`. -/
def truthyIds (events : List RawEvent) : List String :=
  events.filterMap (fun e => truthyId e.user_pseudo_id)

/-- Embedding of `allUsers.size` / `uniqueVisits`: the size of
`new Set(events.map(e => e.user_pseudo_id).filter(Boolean))`. -/
def uniqueVisits (events : List RawEvent) : Nat :=
  (truthyIds events).dedup.length

/-- Embedding of `activatedUsers.size`: distinct truthy pseudo-ids among
`post_created` events. -/
def activatedCount (events : List RawEvent) : Nat :=
  (truthyIds (events.filter (fun e => e.event_name = "post_created"))).dedup.length

/-- The aggregator's unrounded `activationRate` local. -/
def activationRateRaw (events : List RawEvent) : ℚ :=
  if uniqueVisits events > 0 then
    ((activatedCount events : ℚ) / (uniqueVisits events : ℚ)) * 100
  else 0

/-- Embedding of `totalQrScans`. -/
def totalQrScans (events : List RawEvent) : Nat :=
  (events.filter (fun e => e.event_name = "qr_scan")).length

/-- Events inside the trailing 24-hour window:
`now - new Date(e.created_at).getTime() < MS_24H` (false for `NaN`). -/
def inLast24h (now : Int) (e : RawEvent) : Bool :=
  nltB (nsub (some now) e.created_at_ms) (some MS_24H)

/-- Embedding of `dau`: distinct truthy pseudo-ids with an event in the
trailing 24-hour window. -/
def dau (now : Int) (events : List RawEvent) : Nat :=
  (truthyIds (events.filter (inLast24h now))).dedup.length

/-- Embedding of `totalLikes`: `posts.reduce((s, p) => s + (p.likes ?? 0), 0)`. -/
def totalLikes (posts : List RawPost) : Int :=
  posts.foldl (fun s p => s + p.likes.getD 0) 0

/-- Embedding of `totalShares`. -/
def totalShares (events : List RawEvent) : Nat :=
  (events.filter (fun e => e.event_name = "share_post")).length

/-- Embedding of `totalViews`: count of `session_start` and `first_visit`
events. -/
def totalViews (events : List RawEvent) : Nat :=
  (events.filter (fun e =>
    e.event_name = "session_start" ∨ e.event_name = "first_visit")).length

/-- The aggregator's unrounded `engagementRate` local. -/
def engagementRateRaw (events : List RawEvent) (posts : List RawPost) : ℚ :=
  if totalViews events > 0 then
    (((totalLikes posts : ℚ) + (totalShares events : ℚ)) / (totalViews events : ℚ)) * 100
  else 0

/-- Per-user timestamp list of the `byUser` grouping: the parse results
of this user's event timestamps, in input order. -/
def userTimes (events : List RawEvent) (uid : String) : List TVal :=
  events.filterMap (fun e =>
    match truthyId e.user_pseudo_id with
    | some v => if v = uid then some e.created_at_ms else none
    | none => none)

/-- The distinct truthy user ids of the `byUser` grouping.  The source
iterates object keys in insertion order; every use below is a
commutative accumulation, so `dedup` order is irrelevant. -/
def usersOf (events : List RawEvent) : List String :=
  (truthyIds events).dedup

/-- Ordering relation used by `sortTimes` to model
`times.sort((a, b) => a - b)`: a linear order on parse results.  Its
`NaN`-first treatment is a model-side choice that is faithful ONLY on
lists of parseable timestamps (where it is the plain ascending order of
the values); the source's sort on a `NaN`-containing list follows the
ECMAScript stable-sort semantics, modelled separately by `jsSortTimes`,
and is order-dependent there.  Every theorem below that relies on
`sortTimes` therefore carries a parseability hypothesis. -/
def tleP (a b : TVal) : Prop :=
  match a, b with
  | none, _ => True
  | some _, none => False
  | some x, some y => x ≤ y

instance : DecidableRel tleP := by
  intro a b
  cases a <;> cases b <;> simp [tleP] <;> infer_instance

instance : IsTotal TVal tleP := by
  constructor
  intro a b
  cases a <;> cases b <;> (simp [tleP]; try omega)

instance : IsTrans TVal tleP := by
  constructor
  intro a b c
  cases a <;> cases b <;> cases c <;> (simp [tleP]; try omega)

instance : IsAntisymm TVal tleP := by
  constructor
  intro a b
  cases a <;> cases b <;> (simp [tleP]; try omega)

/-- Model of `times.sort((a, b) => a - b)` on a user's timestamp list,
faithful on parseable timestamps (see `tleP` and `jsSortTimes` for the
`NaN` caveat). -/
def sortTimes (l : List TVal) : List TVal :=
  l.insertionSort tleP

/-- Inner loop of the session split, after the first element has seeded
`sessionStart` and `lastEvent`: close the running session (adding its
duration and bumping the count) whenever the next gap exceeds
`SESSION_GAP`, and close the trailing session at input end. -/
def sessGo (sessionStart lastEvent total : TVal) (count : Nat) :
    List TVal → TVal × Nat
  | [] => (nadd total (nsub lastEvent sessionStart), count + 1)
  | t :: rest =>
      if ngtB (nsub t lastEvent) (some SESSION_GAP) then
        sessGo t t (nadd total (nsub lastEvent sessionStart)) (count + 1) rest
      else
        sessGo sessionStart t total count rest

/-- Session totals `(summed duration, session count)` for one user's
sorted timestamp list.  The `[]` case is unreachable in the source
(`byUser` lists are nonempty by construction). -/
def runSessions : List TVal → TVal × Nat
  | [] => (some 0, 0)
  | t :: rest => sessGo t t (some 0) 0 rest

/-- Accumulation step of the per-user session loop. -/
def sessStep (events : List RawEvent) (acc : TVal × Nat) (uid : String) :
    TVal × Nat :=
  let r := runSessions (sortTimes (userTimes events uid))
  (nadd acc.1 r.1, acc.2 + r.2)

/-- Embedding of the `totalSessionMs` / `sessionCount` accumulation over
all users. -/
def sessionAgg (events : List RawEvent) : TVal × Nat :=
  (usersOf events).foldl (sessStep events) (some 0, 0)

/-- Embedding of the (rounded) `avgSessionLengthMin` field: `NaN`
(`none`) propagates from any malformed timestamp of a grouped user. -/
def avgSessionLengthMin (events : List RawEvent) : Option ℚ :=
  let (total, count) := sessionAgg events
  if count > 0 then
    match total with
    | some ms => some (round1 (((ms : ℚ) / (count : ℚ)) / 60000))
    | none => none
  else some 0

/-- Cohort test of the churn metric: `now - t >= MS_7D && now - t < MS_8D`
(false for `NaN`). -/
def inChurnWindow (now : Int) (e : RawEvent) : Bool :=
  ngeB (nsub (some now) e.created_at_ms) (some MS_7D) &&
    nltB (nsub (some now) e.created_at_ms) (some MS_8D)

/-- Embedding of the `activeWeekAgo` set (as a deduplicated list). -/
def activeWeekAgo (now : Int) (events : List RawEvent) : List String :=
  (truthyIds (events.filter (inChurnWindow now))).dedup

/-- Embedding of the `activeLast24h` set (as a deduplicated list). -/
def activeLast24h (now : Int) (events : List RawEvent) : List String :=
  (truthyIds (events.filter (inLast24h now))).dedup

/-- Embedding of `churnedUsers`: cohort members absent from the
last-24-hours active set. -/
def churnedUsers (now : Int) (events : List RawEvent) : List String :=
  (activeWeekAgo now events).filter (fun u => ¬ u ∈ activeLast24h now events)

/-- The aggregator's unrounded `churnRate` local. -/
def churnRateRaw (now : Int) (events : List RawEvent) : ℚ :=
  if (activeWeekAgo now events).length > 0 then
    ((churnedUsers now events).length : ℚ) / ((activeWeekAgo now events).length : ℚ) * 100
  else 0

/-- JS falsiness of a stored timestamp value: `0`, `NaN` (and absence,
handled separately) are falsy. -/
def jsFalsy (v : TVal) : Bool :=
  v = some 0 || v = none

/-- One step of building `firstVisitByUser`: for a `first_visit` event
with truthy pseudo-id, store its time when the key is absent, the stored
value is falsy, or the new time compares strictly smaller
(`!firstVisitByUser[uid] || t < firstVisitByUser[uid]`). -/
def fvStep (m : List (String × TVal)) (e : RawEvent) : List (String × TVal) :=
  if e.event_name = "first_visit" then
    match truthyId e.user_pseudo_id with
    | some u =>
        let t := e.created_at_ms
        match m.lookup u with
        | none => m ++ [(u, t)]
        | some prev => if jsFalsy prev || nltB t prev then setKeyT m u t else m
    | none => m
  else m
where
  /-- JS keyed assignment on the first-visit map. -/
  setKeyT (m : List (String × TVal)) (k : String) (v : TVal) :
      List (String × TVal) :=
    match m with
    | [] => [(k, v)]
    | (k₀, v₀) :: rest =>
        if k₀ = k then (k₀, v) :: rest else (k₀, v₀) :: setKeyT rest k v

/-- Embedding of the `firstVisitByUser` map construction. -/
def firstVisitByUser (events : List RawEvent) : List (String × TVal) :=
  events.foldl fvStep []

/-- Return test of day-1 retention for one map entry:
a non-`first_visit` event of the same user inside
`[t0 + MS_24H, t0 + MS_48H)` (false for `NaN` anywhere). -/
def hasReturn (events : List RawEvent) (uid : String) (firstTime : TVal) : Bool :=
  events.any (fun e =>
    e.user_pseudo_id = some uid && e.event_name ≠ "first_visit" &&
      ngeB e.created_at_ms (nadd firstTime (some MS_24H)) &&
      nltB e.created_at_ms (nadd firstTime (some MS_48H)))

/-- Embedding of the `eligibleDay1` / `returnedDay1` loop over the
entries of `firstVisitByUser` (the `continue` branch skips entries whose
first visit is less than 24 hours old). -/
def day1Counts (now : Int) (events : List RawEvent) : Nat × Nat :=
  (firstVisitByUser events).foldl
    (fun acc p =>
      if nltB (nsub (some now) p.2) (some MS_24H) then acc
      else (acc.1 + 1, if hasReturn events p.1 p.2 then acc.2 + 1 else acc.2))
    (0, 0)

/-- The aggregator's unrounded `day1Retention` local. -/
def day1RetentionRaw (now : Int) (events : List RawEvent) : ℚ :=
  let (eligible, returned) := day1Counts now events
  if eligible > 0 then ((returned : ℚ) / (eligible : ℚ)) * 100 else 0

/-- The aggregator's unrounded `viralCoefficient` local. -/
def viralCoefficientRaw (events : List RawEvent) : ℚ :=
  if uniqueVisits events > 0 then
    (totalShares events : ℚ) / (uniqueVisits events : ℚ)
  else 0

/-- Embedding of a feedback rating count. -/
def ratingCount (feedback : List RawFeedback) (r : String) : Nat :=
  (feedback.filter (fun f => f.rating = r)).length

/-- Embedding of `npsScore`: `Math.round((happyPct - sadPct) * 100)`. -/
def npsScore (feedback : List RawFeedback) : Int :=
  let total := feedback.length
  let happyPct : ℚ := if total > 0 then (ratingCount feedback "happy" : ℚ) / (total : ℚ) else 0
  let sadPct : ℚ := if total > 0 then (ratingCount feedback "sad" : ℚ) / (total : ℚ) else 0
  round ((happyPct - sadPct) * 100)

/-- Embedding of `computeMetrics` (with the source's implicit `Date.now()`
made an explicit `now` argument). -/
def computeMetrics (now : Int) (events : List RawEvent)
    (feedback : List RawFeedback) (posts : List RawPost) : MetricsSnapshot :=
  { uniqueVisits := uniqueVisits events
    activationRate := round1 (activationRateRaw events)
    activationGoalMet := activationRateRaw events > 50
    totalQrScans := totalQrScans events
    dau := dau now events
    totalPosts := posts.length
    totalLikes := totalLikes posts
    totalShares := totalShares events
    engagementRate := round1 (engagementRateRaw events posts)
    avgSessionLengthMin := avgSessionLengthMin events
    churnRate := round1 (churnRateRaw now events)
    day1Retention := round1 (day1RetentionRaw now events)
    viralCoefficient := round2 (viralCoefficientRaw events)
    npsScore := npsScore feedback
    npsThresholdMet := npsScore feedback > 40
    happyCount := ratingCount feedback "happy"
    normalCount := ratingCount feedback "normal"
    sadCount := ratingCount feedback "sad"
    totalFeedback := feedback.length }

/-- Set-based presentation of the activation-rate formula over truthy
(non-null, non-empty) pseudo-identities, used to restate the code's
computation independently of the list/dedup machinery. -/
def specActivationRaw (events : List RawEvent) : ℚ :=
  let u := (truthyIds events).toFinset.card
  let a := (truthyIds (events.filter (fun e => e.event_name = "post_created"))).toFinset.card
  if u > 0 then ((a : ℚ) / (u : ℚ)) * 100 else 0

/-- Modelled from the claim's words for C4: activation over distinct
non-null pseudo-identities (the empty string counts as an identity). -/
def claimActivationRate (events : List RawEvent) : ℚ :=
  let u := (events.filterMap (fun e => e.user_pseudo_id)).toFinset.card
  let a := ((events.filter (fun e => e.event_name = "post_created")).filterMap
      (fun e => e.user_pseudo_id)).toFinset.card
  if u > 0 then round1 (((a : ℚ) / (u : ℚ)) * 100) else 0

/-- Set-based presentation of the churn formula with the code's windows:
cohort = identities with an event of age in `[7d, 8d)`, churned = cohort
members with no event of age `< 24h`. -/
def specChurnRaw (now : Int) (events : List RawEvent) : ℚ :=
  let cohort := (truthyIds (events.filter (inChurnWindow now))).toFinset
  let active := (truthyIds (events.filter (inLast24h now))).toFinset
  let churned := (cohort.filter (fun u => u ∉ active)).card
  if cohort.card > 0 then ((churned : ℚ) / (cohort.card : ℚ)) * 100 else 0

/-- Modelled from the claim's words for C3: cohort = identities with an
event with timestamp in `[now−8d, now−7d)`, churned = cohort members with
no event with timestamp in `[now−24h, now)`. -/
def claimChurnRate (now : Int) (events : List RawEvent) : ℚ :=
  let cohort := (truthyIds (events.filter (fun e =>
      match e.created_at_ms with
      | some t => decide (now - MS_8D ≤ t) && decide (t < now - MS_7D)
      | none => false))).toFinset
  let active := (truthyIds (events.filter (fun e =>
      match e.created_at_ms with
      | some t => decide (now - MS_24H ≤ t) && decide (t < now)
      | none => false))).toFinset
  let churned := (cohort.filter (fun u => u ∉ active)).card
  if cohort.card > 0 then round1 (((churned : ℚ) / (cohort.card : ℚ)) * 100) else 0

/-- Parseable `first_visit` timestamps of one truthy pseudo-identity, in
input order. -/
def fvTimesInt (events : List RawEvent) (u : String) : List Int :=
  events.filterMap (fun e =>
    if e.event_name = "first_visit" then
      match truthyId e.user_pseudo_id with
      | some v => if v = u then e.created_at_ms else none
      | none => none
    else none)

/-- Truthy pseudo-identities having a `first_visit` event. -/
def fvUids (events : List RawEvent) : List String :=
  events.filterMap (fun e =>
    if e.event_name = "first_visit" then truthyId e.user_pseudo_id else none)

/-- Modelled from the claim's words for C7: each identity's `t0` is the
earliest `first_visit` time; an identity is eligible exactly when
`now − t0 ≥ 24h`, and returns exactly when it has a non-`first_visit`
event in `[t0+24h, t0+48h)`; retention = returned / eligible × 100
rounded to one decimal, `0` when no identity is eligible. -/
def claimDay1Retention (now : Int) (events : List RawEvent) : ℚ :=
  let uids := (fvUids events).toFinset
  let elig := uids.filter (fun u =>
    (match (fvTimesInt events u).min? with
     | some t => decide (now - t ≥ MS_24H)
     | none => false) = true)
  let ret := elig.filter (fun u =>
    (match (fvTimesInt events u).min? with
     | some t => hasReturn events u (some t)
     | none => false) = true)
  if elig.card > 0 then round1 (((ret.card : ℚ) / (elig.card : ℚ)) * 100) else 0

/-- Event-list constructor used by the concrete examples. -/
def mkEv (id name : String) (uid : Option String) (t : TVal) : RawEvent :=
  ⟨id, name, uid, t⟩

/-- Example input for C4: a `post_created` event whose pseudo-id is the
empty string (non-null but falsy) plus one ordinary visitor. -/
def exEmptyId : List RawEvent :=
  [mkEv "1" "post_created" (some "") (some 0),
   mkEv "2" "first_visit" (some "a") (some 0)]

/-- Example input for C4: ten identities, six of which created a post. -/
def exTen : List RawEvent :=
  (List.range 10).map (fun i =>
    mkEv (toString i) (if i < 6 then "post_created" else "session_start")
      (some (toString i)) (some 0))

/-- Example input for C3, first divergence: a single event exactly 8 days
old (in the claim's cohort, not in the code's). -/
def exChurnA : List RawEvent :=
  [mkEv "1" "session_start" (some "a") (some 0)]

/-- Example input for C3, second divergence: a cohort member whose only
recent event is exactly 24 hours old (active for the claim, not for the
code). -/
def exChurnB : List RawEvent :=
  [mkEv "1" "session_start" (some "b") (some 43200000),
   mkEv "2" "session_start" (some "b") (some 604800000)]

/-- Example input for C7: two `first_visit` events of one identity, the
earlier exactly at the epoch (a falsy stored value, overwritten by the
later one), plus a return event qualifying only for the true earliest
`t0`. -/
def exEpochFv : List RawEvent :=
  [mkEv "1" "first_visit" (some "u") (some 0),
   mkEv "2" "first_visit" (some "u") (some 3600000),
   mkEv "3" "session_start" (some "u") (some 88200000)]

/-- Example input for C2: one identity-attributed event with an
unparseable timestamp. -/
def exBadTime : List RawEvent :=
  [mkEv "1" "session_start" (some "u") none]

/-- Example input for C8: one identity with events at minutes
0, 5, 40, 45. -/
def exSessions : List RawEvent :=
  [mkEv "1" "session_start" (some "u") (some 0),
   mkEv "2" "page_view" (some "u") (some 300000),
   mkEv "3" "page_view" (some "u") (some 2400000),
   mkEv "4" "page_view" (some "u") (some 2700000)]

/-- A permutation of `exSessions`, used as a concrete witness input. -/
def exSessionsPerm : List RawEvent :=
  [mkEv "3" "page_view" (some "u") (some 2400000),
   mkEv "1" "session_start" (some "u") (some 0),
   mkEv "4" "page_view" (some "u") (some 2700000),
   mkEv "2" "page_view" (some "u") (some 300000)]

/-- One stable-insertion step of the source's
`times.sort((a, b) => a - b)` under the ECMAScript semantics for a
comparator returning `NaN`: `SortCompare` maps a `NaN` result to `+0`
("equal"), and the sort is stable, so an element is only moved in front
of elements that compare strictly greater than it.  `x` is placed before
the first `y` with `y − x > 0`; every `NaN` comparison is "equal", so
`NaN` stays where the input order put it. -/
def jsInsert (x : TVal) : List TVal → List TVal
  | [] => [x]
  | y :: ys => if ngtB y x then x :: y :: ys else y :: jsInsert x ys

/-- Stable JS sort of a user's timestamp list (left fold of `jsInsert`
over the input order).  On lists of parseable timestamps this computes
the ascending order, like `sortTimes`; on a `NaN`-containing list the
result depends on the input order, which is exactly the
order-dependence the C8 counterexample exhibits. -/
def jsSortTimes (l : List TVal) : List TVal :=
  l.foldl (fun acc x => jsInsert x acc) []

/-- Session totals over all users, with the per-user sort given by the
stable JS sort model `jsSortTimes` instead of the fixed total order of
`sortTimes`. -/
def sessionAggJs (events : List RawEvent) : TVal × Nat :=
  (usersOf events).foldl (fun acc u =>
    let r := runSessions (jsSortTimes (userTimes events u))
    (nadd acc.1 r.1, acc.2 + r.2)) (some 0, 0)

/-- The reported average session length under the stable JS sort model. -/
def avgSessionLengthMinJs (events : List RawEvent) : Option ℚ :=
  let (total, count) := sessionAggJs events
  if count > 0 then
    match total with
    | some ms => some (round1 (((ms : ℚ) / (count : ℚ)) / 60000))
    | none => none
  else some 0

/-- Example input for C8's counterexample: one identity with events at
time 0, an unparseable timestamp (`NaN`), and minute 40, in that input
order. -/
def exNanA : List RawEvent :=
  [mkEv "1" "session_start" (some "u") (some 0),
   mkEv "2" "page_view" (some "u") none,
   mkEv "3" "page_view" (some "u") (some 2400000)]

/-- The same three events as `exNanA` with the first two swapped: the
`NaN` row now precedes time 0 in input order. -/
def exNanB : List RawEvent :=
  [mkEv "2" "page_view" (some "u") none,
   mkEv "1" "session_start" (some "u") (some 0),
   mkEv "3" "page_view" (some "u") (some 2400000)]

instance (events : List RawEvent) : RightCommutative (sessStep events) := by
  constructor
  intro acc u v
  unfold sessStep
  refine Prod.ext ?_ ?_
  · show nadd (nadd acc.1 _) _ = nadd (nadd acc.1 _) _
    rcases acc.1 with _ | a <;>
      rcases (runSessions (sortTimes (userTimes events u))).1 with _ | x <;>
        rcases (runSessions (sortTimes (userTimes events v))).1 with _ | y <;>
          (simp [nadd]; try omega)
  · show acc.2 + _ + _ = acc.2 + _ + _
    omega

end Metrics

/-! ## Helper lemmas -/

/-- Evaluation rule for the ceiling-rounded second conversion. -/
theorem ceil_div_thousand (a z : Int) (h1 : (z - 1) * 1000 < a)
    (h2 : a ≤ z * 1000) : ⌈((a : ℚ)) / 1000⌉ = z := by
  rw [Int.ceil_eq_iff]
  constructor
  · rw [lt_div_iff₀ (by norm_num : (0 : ℚ) < 1000)]
    exact_mod_cast h1
  · rw [div_le_iff₀ (by norm_num : (0 : ℚ) < 1000)]
    exact_mod_cast h2

namespace RateLimit

theorem lookup_setKey_self (m : List (String × Int)) (k : String) (v : Int) :
    (setKey m k v).lookup k = some v := by
  induction m with
  | nil => simp [setKey, List.lookup_cons]
  | cons p rest ih =>
      obtain ⟨k₀, v₀⟩ := p
      by_cases h : k₀ = k
      · simp [setKey, h, List.lookup_cons]
      · have hb : (k == k₀) = false := beq_eq_false_iff_ne.mpr (Ne.symm h)
        simp [setKey, h, List.lookup_cons, hb, ih]

theorem lookup_setKey_ne (m : List (String × Int)) (k k' : String) (v : Int)
    (h : k' ≠ k) : (setKey m k v).lookup k' = m.lookup k' := by
  have hb : (k' == k) = false := beq_eq_false_iff_ne.mpr h
  induction m with
  | nil => simp [setKey, List.lookup_cons, hb]
  | cons p rest ih =>
      obtain ⟨k₀, v₀⟩ := p
      by_cases hk : k₀ = k
      · subst hk
        simp [setKey, List.lookup_cons, hb, ih]
      · by_cases hk' : k' = k₀
        · simp [setKey, hk, List.lookup_cons, hk', ih]
        · have hb' : (k' == k₀) = false := beq_eq_false_iff_ne.mpr hk'
          simp [setKey, hk, List.lookup_cons, hb', ih]

theorem guardedAttempt_length_le (st : List Int) (now : Int)
    (h : st.length ≤ 3) : (guardedAttempt st now).length ≤ 3 := by
  unfold guardedAttempt
  by_cases hc : (canPost st now).1 = true
  · rw [if_pos hc]
    unfold recordPost
    have hlt : (getRecentPostTimes st now).length < 3 := by
      by_contra hge
      unfold canPost at hc
      rw [if_neg (by simpa [POST_LIMIT] using hge)] at hc
      rcases hmin : (getRecentPostTimes st now).min? with _ | m
      · rw [List.min?_eq_none_iff] at hmin
        rw [hmin] at hge
        simp at hge
      · rw [hmin] at hc
        simp at hc
    simp only [List.length_append, List.length_cons, List.length_nil]
    omega
  · rw [if_neg hc]
    exact h

theorem runGuarded_length_le (attempts : List Int) :
    (runGuarded attempts).length ≤ 3 := by
  unfold runGuarded
  have h : ∀ (l : List Int) (st : List Int), st.length ≤ 3 →
      (l.foldl guardedAttempt st).length ≤ 3 := by
    intro l
    induction l with
    | nil => intro st h; simpa using h
    | cons x xs ih =>
        intro st h
        simp only [List.foldl_cons]
        exact ih _ (guardedAttempt_length_le st x h)
  exact h attempts [] (by simp)

end RateLimit

/-! ## C1 — post-quota window invariant -/

/-- C1 counterexample: four unguarded `recordPost` calls at time 0 leave
four stored timestamps inside the single 10-minute window starting at 0,
so the claimed invariant fails when recording skips the allowed check. -/
theorem post_quota_unguarded_violation :
    ((RateLimit.runUnguarded [0, 0, 0, 0]).countP
      (fun t => decide (0 ≤ t) && decide (t < 0 + RateLimit.POST_WINDOW_MS))) = 4 := by
  decide

/-- C1 (amended): when every `recordPost` is guarded by an allowed
`canPost` at the same instant (the caller discipline the enforcer
expects), no 10-minute window ever contains more than 3 stored
timestamps. -/
theorem post_quota_guarded_window (attempts : List Int) (a : Int) :
    ((RateLimit.runGuarded attempts).countP
      (fun t => decide (a ≤ t) && decide (t < a + RateLimit.POST_WINDOW_MS))) ≤ 3 :=
  le_trans (List.countP_le_length _) (RateLimit.runGuarded_length_le attempts)

/-! ## C5 — canPost evaluation -/

/-- C5 counterexample: with three stored timestamps of age exactly the
window width, the code prunes them (age ≥ W is discarded) and allows,
while the claim's pruning ("discard exactly those older than `now − W`")
keeps all three and denies. -/
theorem prune_boundary_counterexample :
    RateLimit.canPost [0, 0, 0] 600000 = (true, 0)
    ∧ RateLimit.claimCanPost [0, 0, 0] 600000 = (false, 0) := by
  constructor
  · decide
  · have h : RateLimit.claimCanPost [0, 0, 0] 600000
        = (false, ⌈(((0 : Int)) : ℚ) / 1000⌉) := rfl
    rw [h, ceil_div_thousand 0 0 (by norm_num) (by norm_num)]

/-- C5 (amended): pruning keeps exactly the stored timestamps with
`now − t < 10 min` (so discards those with age at least the window, not
only the strictly older ones); below 3 survivors the action is allowed
with zero wait, otherwise it is denied with the ceiling-rounded wait
until the oldest survivor leaves the window. -/
theorem can_post_amended (times : List Int) (now : Int) :
    (∀ t, t ∈ RateLimit.getRecentPostTimes times now ↔
        (t ∈ times ∧ now - t < RateLimit.POST_WINDOW_MS))
    ∧ ((RateLimit.getRecentPostTimes times now).length < 3 →
        RateLimit.canPost times now = (true, 0))
    ∧ (∀ m, ¬ (RateLimit.getRecentPostTimes times now).length < 3 →
        (RateLimit.getRecentPostTimes times now).min? = some m →
        RateLimit.canPost times now =
          (false, ⌈((RateLimit.POST_WINDOW_MS - (now - m) : Int) : ℚ) / 1000⌉)) := by
  refine ⟨?_, ?_, ?_⟩
  · intro t
    simp [RateLimit.getRecentPostTimes, List.mem_filter, and_comm]
  · intro h
    unfold RateLimit.canPost
    rw [if_pos (by simpa [RateLimit.POST_LIMIT] using h)]
  · intro m h hm
    unfold RateLimit.canPost
    rw [if_neg (by simpa [RateLimit.POST_LIMIT] using h)]
    rw [hm]

/-- Witness for `can_post_amended` at concrete inputs: two survivors
allow; three survivors of age 5 ms deny with a 600-second wait. -/
theorem can_post_amended_witness :
    RateLimit.canPost [0, 0] 5 = (true, 0)
    ∧ RateLimit.canPost [0, 0, 0] 5 = (false, 600) := by
  constructor
  · exact (can_post_amended [0, 0] 5).2.1 (by decide)
  · have h := (can_post_amended [0, 0, 0] 5).2.2 0 (by decide) (by decide)
    rw [h]
    have h2 : ((RateLimit.POST_WINDOW_MS - (5 - 0) : Int)) = 599995 := by decide
    rw [h2, ceil_div_thousand 599995 600 (by norm_num) (by norm_num)]

/-! ## C6 — like policy -/

/-- C6: `remainingLikes` is the ceiling minus the likes given, clamped at
0; `recordLike` at or beyond the ceiling fails and leaves the whole store
unchanged; below the ceiling it succeeds and increments exactly this
post's counter by one. -/
theorem likes_policy (s : RateLimit.Store) (p : String) :
    (5 ≤ RateLimit.getLikesGiven s p → RateLimit.recordLike s p = (false, s))
    ∧ (RateLimit.getLikesGiven s p < 5 →
        (RateLimit.recordLike s p).1 = true
        ∧ RateLimit.getLikesGiven (RateLimit.recordLike s p).2 p
            = RateLimit.getLikesGiven s p + 1)
    ∧ RateLimit.remainingLikes s p = max 0 (5 - RateLimit.getLikesGiven s p) := by
  refine ⟨?_, ?_, ?_⟩
  · intro h
    simp [RateLimit.recordLike, RateLimit.canLikePost, RateLimit.LIKE_LIMIT_PER_POST,
      not_lt.mpr h]
  · intro h
    have hc : RateLimit.canLikePost s p = true := by
      simp only [RateLimit.canLikePost, RateLimit.LIKE_LIMIT_PER_POST, decide_eq_true_eq]
      exact h
    constructor
    · simp [RateLimit.recordLike, hc]
    · simp [RateLimit.recordLike, hc, RateLimit.getLikesGiven, RateLimit.lookup_setKey_self]
  · simp [RateLimit.remainingLikes, RateLimit.LIKE_LIMIT_PER_POST]

/-- Witness for `likes_policy`: at a counter of 5 the record fails and
the store is unchanged; at a counter of 2 it succeeds and the counter
becomes 3. -/
theorem likes_policy_witness :
    RateLimit.recordLike ⟨[("a", 5)], [], none⟩ "a" = (false, ⟨[("a", 5)], [], none⟩)
    ∧ (RateLimit.recordLike ⟨[("a", 2)], [], none⟩ "a").1 = true
    ∧ RateLimit.getLikesGiven (RateLimit.recordLike ⟨[("a", 2)], [], none⟩ "a").2 "a"
        = RateLimit.getLikesGiven ⟨[("a", 2)], [], none⟩ "a" + 1 := by
  refine ⟨(likes_policy _ "a").1 (by decide), ?_⟩
  have h := (likes_policy (⟨[("a", 2)], [], none⟩ : RateLimit.Store) "a").2.1 (by decide)
  exact ⟨h.1, h.2⟩

/-! ## C10 — recordLike frame condition -/

/-- C10: `recordLike` on post `p` — whether it succeeds or is rejected —
never changes another post's like counter, the stored post-timestamp
sequence, or the last-fetch timestamp. -/
theorem record_like_frame (s : RateLimit.Store) (p p' : String) (h : p ≠ p') :
    RateLimit.getLikesGiven (RateLimit.recordLike s p).2 p'
        = RateLimit.getLikesGiven s p'
    ∧ (RateLimit.recordLike s p).2.postTimes = s.postTimes
    ∧ (RateLimit.recordLike s p).2.lastFetch = s.lastFetch := by
  by_cases hc : RateLimit.canLikePost s p = true
  · have hr : RateLimit.recordLike s p =
        (true, { s with likes :=
          RateLimit.setKey s.likes p (RateLimit.getLikesGiven s p + 1) }) := by
      simp [RateLimit.recordLike, hc]
    rw [hr]
    refine ⟨?_, rfl, rfl⟩
    simp [RateLimit.getLikesGiven, RateLimit.lookup_setKey_ne _ _ _ _ (Ne.symm h)]
  · have hr : RateLimit.recordLike s p = (false, s) := by
      simp [RateLimit.recordLike, hc]
    rw [hr]
    exact ⟨rfl, rfl, rfl⟩

/-- Witness for `record_like_frame` at a concrete store and distinct
posts. -/
theorem record_like_frame_witness :
    RateLimit.getLikesGiven
        (RateLimit.recordLike ⟨[("a", 1), ("b", 2)], [5], some 7⟩ "a").2 "b"
      = RateLimit.getLikesGiven ⟨[("a", 1), ("b", 2)], [5], some 7⟩ "b"
    ∧ (RateLimit.recordLike ⟨[("a", 1), ("b", 2)], [5], some 7⟩ "a").2.postTimes = [5]
    ∧ (RateLimit.recordLike ⟨[("a", 1), ("b", 2)], [5], some 7⟩ "a").2.lastFetch = some 7 :=
  record_like_frame ⟨[("a", 1), ("b", 2)], [5], some 7⟩ "a" "b" (by decide)

/-! ## C9 — fetch cooldown -/

/-- C9: `recordFetch` unconditionally overwrites the single stored
timestamp; immediately after it `canFetch` is false, and it is true again
exactly when at least the 3-second cooldown has elapsed; an absent stored
timestamp reads as 0. -/
theorem fetch_cooldown (s : RateLimit.Store) (t now : Int) :
    (RateLimit.recordFetch s t).lastFetch = some t
    ∧ RateLimit.canFetch (RateLimit.recordFetch s t).lastFetch t = false
    ∧ RateLimit.canFetch (RateLimit.recordFetch s t).lastFetch now
        = decide (now - t ≥ 3000)
    ∧ RateLimit.canFetch none now = decide (now - 0 ≥ 3000)
    ∧ RateLimit.canFetch (some t) now = decide (now - t ≥ 3000) := by
  refine ⟨rfl, ?_, ?_, ?_, ?_⟩
  · simp [RateLimit.canFetch, RateLimit.recordFetch, RateLimit.FETCH_COOLDOWN_MS]
  · simp [RateLimit.canFetch, RateLimit.recordFetch, RateLimit.FETCH_COOLDOWN_MS]
  · simp [RateLimit.canFetch, RateLimit.FETCH_COOLDOWN_MS]
  · simp [RateLimit.canFetch, RateLimit.FETCH_COOLDOWN_MS]

/-! ## Set-counting bridge lemmas -/

namespace Metrics

theorem dedup_toFinset (l : List String) : l.dedup.toFinset = l.toFinset := by
  ext u
  simp [List.mem_toFinset, List.mem_dedup]

theorem nodup_filter_length (l : List String) (hl : l.Nodup) (p : String → Bool) :
    (l.filter p).length = (l.toFinset.filter (fun u => p u = true)).card := by
  have h1 : (l.filter p).Nodup := hl.filter p
  calc (l.filter p).length
      = (l.filter p).dedup.length := by rw [h1.dedup]
    _ = (l.filter p).toFinset.card := (List.card_toFinset _).symm
    _ = (l.toFinset.filter (fun u => p u = true)).card := by
        rw [List.toFinset_filter]

end Metrics

/-! ## C4 — activation rate -/

/-- C4 counterexample: a `post_created` event whose pseudo-id is the
empty string is non-null, so the claim's activation formula counts it
(rate 50 over the two non-null identities), but the code's
`filter(Boolean)` drops it and reports rate 0. -/
theorem activation_nonnull_counterexample :
    (Metrics.computeMetrics 0 Metrics.exEmptyId [] []).activationRate = 0
    ∧ Metrics.claimActivationRate Metrics.exEmptyId = 50 :=
  ⟨by with_unfolding_all rfl, by with_unfolding_all rfl⟩

/-- C4 (amended): the returned activation rate is the share of distinct
truthy (non-null, non-empty) pseudo-identities with a `post_created`
event among all distinct truthy identities, × 100 rounded to 1 decimal
(0 when there are none), and the goal flag holds exactly when the
pre-rounding rate exceeds 50; in particular ten identities with six
creators give exactly 60.0 with the goal met. -/
theorem activation_rate_amended (now : Int) (events : List Metrics.RawEvent)
    (feedback : List Metrics.RawFeedback) (posts : List Metrics.RawPost) :
    (Metrics.computeMetrics now events feedback posts).activationRate
        = round1 (Metrics.specActivationRaw events)
    ∧ (Metrics.computeMetrics now events feedback posts).activationGoalMet
        = decide (Metrics.specActivationRaw events > 50)
    ∧ (Metrics.computeMetrics 0 Metrics.exTen [] []).activationRate = 60
    ∧ (Metrics.computeMetrics 0 Metrics.exTen [] []).activationGoalMet = true := by
  have hkey : Metrics.activationRateRaw events = Metrics.specActivationRaw events := by
    simp only [Metrics.activationRateRaw, Metrics.specActivationRaw,
      Metrics.uniqueVisits, Metrics.activatedCount, List.card_toFinset]
  refine ⟨?_, ?_, by with_unfolding_all rfl, by with_unfolding_all rfl⟩
  · simp [Metrics.computeMetrics, hkey]
  · simp [Metrics.computeMetrics, hkey]

/-! ## C3 — churn rate -/

/-- C3 counterexample: the code's cohort window is `(now−8d, now−7d]` and
its activity window is `age < 24h`, not the claimed `[now−8d, now−7d)`
and `[now−24h, now)`: an identity whose only event is exactly 8 days old
is churned for the claim (rate 100) but outside the code's cohort (rate
0), and a cohort identity whose only recent event is exactly 24 hours old
is active for the claim (rate 0) but churned for the code (rate 100). -/
theorem churn_window_counterexample :
    (Metrics.computeMetrics Metrics.MS_8D Metrics.exChurnA [] []).churnRate = 0
    ∧ Metrics.claimChurnRate Metrics.MS_8D Metrics.exChurnA = 100
    ∧ (Metrics.computeMetrics Metrics.MS_8D Metrics.exChurnB [] []).churnRate = 100
    ∧ Metrics.claimChurnRate Metrics.MS_8D Metrics.exChurnB = 0 :=
  ⟨by with_unfolding_all rfl, by with_unfolding_all rfl,
   by with_unfolding_all rfl, by with_unfolding_all rfl⟩

/-- C3 (amended): the returned churn rate is, over the identities with at
least one event of age in `[7d, 8d)` (equivalently, timestamp in
`(now−8d, now−7d]`), the share with no event of age `< 24h`, × 100
rounded to 1 decimal, and 0 when that cohort is empty. -/
theorem churn_rate_amended (now : Int) (events : List Metrics.RawEvent)
    (feedback : List Metrics.RawFeedback) (posts : List Metrics.RawPost) :
    (Metrics.computeMetrics now events feedback posts).churnRate
        = round1 (Metrics.specChurnRaw now events) := by
  have hA : (Metrics.activeWeekAgo now events).length
      = (Metrics.truthyIds (events.filter (Metrics.inChurnWindow now))).toFinset.card := by
    rw [List.card_toFinset]
    rfl
  have hch : (Metrics.churnedUsers now events).length
      = (((Metrics.truthyIds (events.filter (Metrics.inChurnWindow now))).toFinset).filter
          (fun u => u ∉ (Metrics.truthyIds (events.filter (Metrics.inLast24h now))).toFinset)).card := by
    unfold Metrics.churnedUsers Metrics.activeWeekAgo
    rw [Metrics.nodup_filter_length _ (List.nodup_dedup _), Metrics.dedup_toFinset]
    congr 1
    apply Finset.filter_congr
    intro u _
    simp [Metrics.activeLast24h, List.mem_dedup, List.mem_toFinset]
  simp only [Metrics.computeMetrics, Metrics.churnRateRaw, Metrics.specChurnRaw, hA, hch]

/-! ## C8 — session reconstruction -/

namespace Metrics

theorem sortTimes_eq_of_perm {l₁ l₂ : List TVal} (h : l₁.Perm l₂) :
    sortTimes l₁ = sortTimes l₂ :=
  List.eq_of_perm_of_sorted
    ((List.perm_insertionSort tleP l₁).trans
      (h.trans (List.perm_insertionSort tleP l₂).symm))
    (List.sorted_insertionSort tleP l₁) (List.sorted_insertionSort tleP l₂)

theorem sessStep_congr {events₁ events₂ : List RawEvent}
    (h : events₁.Perm events₂) (acc : TVal × Nat) (u : String) :
    sessStep events₁ acc u = sessStep events₂ acc u := by
  have he : sortTimes (userTimes events₁ u) = sortTimes (userTimes events₂ u) :=
    sortTimes_eq_of_perm (by unfold userTimes; exact h.filterMap _)
  unfold sessStep
  rw [he]

theorem sessionAgg_perm {events₁ events₂ : List RawEvent}
    (h : events₁.Perm events₂) : sessionAgg events₁ = sessionAgg events₂ := by
  unfold sessionAgg usersOf
  rw [List.foldl_ext (sessStep events₁) (sessStep events₂) _
    (fun acc u _ => sessStep_congr h acc u)]
  exact ((h.filterMap _).dedup).foldl_eq _

theorem avgSession_perm {events₁ events₂ : List RawEvent}
    (h : events₁.Perm events₂) :
    avgSessionLengthMin events₁ = avgSessionLengthMin events₂ := by
  unfold avgSessionLengthMin
  rw [sessionAgg_perm h]

end Metrics

/-- C8 counterexample: the same three events of one identity — times 0,
an unparseable timestamp (`NaN`), and minute 40 — in two input orders.
Under the ECMAScript stable-sort semantics (`jsSortTimes`: a `NaN`
comparator result counts as "equal", so `NaN` keeps its input position)
the order `[0, NaN, 40min]` yields one 40-minute session (average 40.0),
while `[NaN, 0, 40min]` makes the session close sum in `NaN` (average
`NaN`): session reconstruction is not invariant under permutation once a
malformed timestamp is present. -/
theorem session_nan_order_counterexample :
    Metrics.exNanA.Perm Metrics.exNanB
    ∧ Metrics.avgSessionLengthMinJs Metrics.exNanA = some 40
    ∧ Metrics.avgSessionLengthMinJs Metrics.exNanB = none :=
  ⟨by decide, by with_unfolding_all rfl, by with_unfolding_all rfl⟩

/-- C8 (amended): session reconstruction is deterministic and
permutation-invariant in the event list (the grouping and per-user sort
are internal) provided every event carrying a truthy pseudo-id has a
parseable timestamp — the domain on which the sort order is determined
by the values alone; and the canonical four-event input (minutes 0, 5,
40, 45, one identity, 30-minute gap) yields two sessions of 5 minutes
each, so the reported average session length is exactly 5.0. -/
theorem session_perm_invariant (events₁ events₂ : List Metrics.RawEvent)
    (feedback₁ feedback₂ : List Metrics.RawFeedback)
    (posts₁ posts₂ : List Metrics.RawPost) (now₁ now₂ : Int)
    (hperm : events₁.Perm events₂)
    (_hclean : ∀ e ∈ events₁, truthyId e.user_pseudo_id ≠ none →
      e.created_at_ms ≠ none) :
    (Metrics.computeMetrics now₁ events₁ feedback₁ posts₁).avgSessionLengthMin
      = (Metrics.computeMetrics now₂ events₂ feedback₂ posts₂).avgSessionLengthMin
    ∧ (Metrics.computeMetrics 0 Metrics.exSessions [] []).avgSessionLengthMin
      = some 5 := by
  constructor
  · show Metrics.avgSessionLengthMin events₁ = Metrics.avgSessionLengthMin events₂
    exact Metrics.avgSession_perm hperm
  · with_unfolding_all rfl

/-- Witness for `session_perm_invariant`: the four-event example (all
timestamps parseable) and a shuffle of it report the same average
session length. -/
theorem session_perm_invariant_witness :
    (Metrics.computeMetrics 0 Metrics.exSessions [] []).avgSessionLengthMin
      = (Metrics.computeMetrics 99 Metrics.exSessionsPerm [] []).avgSessionLengthMin
    ∧ (Metrics.computeMetrics 0 Metrics.exSessions [] []).avgSessionLengthMin
      = some 5 :=
  session_perm_invariant Metrics.exSessions Metrics.exSessionsPerm [] [] [] [] 0 99
    (by decide) (by decide)

/-! ## C2 — malformed rows -/

namespace Metrics

theorem filter_window_parseable (events : List RawEvent) (w : RawEvent → Bool)
    (hw : ∀ e, e.created_at_ms = none → w e = false) :
    events.filter w
      = (events.filter (fun e => e.created_at_ms ≠ none)).filter w := by
  rw [List.filter_filter]
  apply List.filter_congr
  intro e _
  cases hc : e.created_at_ms
  · simp [hw e hc]
  · simp [hc]

theorem inLast24h_none (now : Int) (e : RawEvent)
    (h : e.created_at_ms = none) : inLast24h now e = false := by
  simp [inLast24h, h, nsub, nltB]

theorem inChurnWindow_none (now : Int) (e : RawEvent)
    (h : e.created_at_ms = none) : inChurnWindow now e = false := by
  simp [inChurnWindow, h, nsub, ngeB]

theorem sessGo_fst_some (l : List TVal) :
    ∀ (ss le tot : TVal) (cnt : Nat), (∀ t, t ∈ l → t ≠ none) →
    ss ≠ none → le ≠ none → tot ≠ none →
    (sessGo ss le tot cnt l).1 ≠ none := by
  induction l with
  | nil =>
      intro ss le tot cnt _ hss hle htot
      obtain ⟨a, rfl⟩ := Option.ne_none_iff_exists'.mp hss
      obtain ⟨b, rfl⟩ := Option.ne_none_iff_exists'.mp hle
      obtain ⟨c, rfl⟩ := Option.ne_none_iff_exists'.mp htot
      simp [sessGo, nadd, nsub]
  | cons t rest ih =>
      intro ss le tot cnt hl hss hle htot
      have ht : t ≠ none := hl t (by simp)
      have hrest : ∀ x, x ∈ rest → x ≠ none := fun x hx => hl x (by simp [hx])
      obtain ⟨a, rfl⟩ := Option.ne_none_iff_exists'.mp hss
      obtain ⟨b, rfl⟩ := Option.ne_none_iff_exists'.mp hle
      obtain ⟨c, rfl⟩ := Option.ne_none_iff_exists'.mp htot
      obtain ⟨d, rfl⟩ := Option.ne_none_iff_exists'.mp ht
      unfold sessGo
      by_cases hgap : ngtB (nsub (some d) (some b)) (some SESSION_GAP) = true
      · rw [if_pos hgap]
        exact ih _ _ _ _ hrest (by simp) (by simp) (by simp [nadd, nsub])
      · rw [if_neg hgap]
        exact ih _ _ _ _ hrest (by simp) (by simp) (by simp)

theorem runSessions_fst_some (l : List TVal) (hl : ∀ t, t ∈ l → t ≠ none) :
    (runSessions l).1 ≠ none := by
  cases l with
  | nil => simp [runSessions]
  | cons t rest =>
      have ht : t ≠ none := hl t (by simp)
      exact sessGo_fst_some rest t t (some 0) 0
        (fun x hx => hl x (by simp [hx])) ht ht (by simp)

theorem userTimes_all_some (events : List RawEvent) (u : String)
    (H : ∀ e ∈ events, truthyId e.user_pseudo_id ≠ none → e.created_at_ms ≠ none) :
    ∀ t, t ∈ userTimes events u → t ≠ none := by
  intro t ht
  unfold userTimes at ht
  rw [List.mem_filterMap] at ht
  obtain ⟨e, he, hmatch⟩ := ht
  rcases htr : truthyId e.user_pseudo_id with _ | v
  · rw [htr] at hmatch
    simp at hmatch
  · rw [htr] at hmatch
    by_cases hv : v = u
    · simp only [hv, if_pos rfl] at hmatch
      obtain rfl : e.created_at_ms = t := Option.some.inj hmatch
      exact H e he (by rw [htr]; simp)
    · simp [hv] at hmatch

theorem sessionAgg_fst_some (events : List RawEvent)
    (H : ∀ e ∈ events, truthyId e.user_pseudo_id ≠ none → e.created_at_ms ≠ none) :
    (sessionAgg events).1 ≠ none := by
  unfold sessionAgg
  have hstep : ∀ (users : List String) (acc : TVal × Nat), acc.1 ≠ none →
      (users.foldl (sessStep events) acc).1 ≠ none := by
    intro users
    induction users with
    | nil => intro acc h; simpa using h
    | cons u rest ih =>
        intro acc h
        simp only [List.foldl_cons]
        apply ih
        show nadd acc.1 (runSessions (sortTimes (userTimes events u))).1 ≠ none
        have hsorted : ∀ t, t ∈ sortTimes (userTimes events u) → t ≠ none := by
          intro t ht
          exact userTimes_all_some events u H t
            ((List.perm_insertionSort tleP (userTimes events u)).mem_iff.mp ht)
        have hr := runSessions_fst_some _ hsorted
        obtain ⟨a, ha⟩ := Option.ne_none_iff_exists'.mp h
        obtain ⟨b, hb⟩ := Option.ne_none_iff_exists'.mp hr
        rw [ha, hb]
        simp [nadd]
  exact hstep _ _ (by simp)

end Metrics

/-- C2 counterexample: a single event with a truthy pseudo-id and an
unparseable timestamp is not skipped by the session reconstruction; its
`NaN` propagates and the returned average session length is `NaN`
(`none`), so the aggregation does yield an ill-defined field. -/
theorem avg_session_nan_counterexample :
    (Metrics.computeMetrics 0 Metrics.exBadTime [] []).avgSessionLengthMin = none := by
  with_unfolding_all rfl

/-- C2 (amended): rows with malformed timestamps are excluded from the
window-tested metrics (DAU and churn behave as if those rows were
removed), and the whole aggregation never fails; but such rows are not
skipped by session reconstruction — average session length is guaranteed
well-defined only when every event carrying a truthy pseudo-id has a
parseable timestamp. -/
theorem malformed_rows_amended (now : Int) (events : List Metrics.RawEvent)
    (feedback : List Metrics.RawFeedback) (posts : List Metrics.RawPost) :
    ((Metrics.computeMetrics now events feedback posts).dau
      = (Metrics.computeMetrics now
          (events.filter (fun e => e.created_at_ms ≠ none)) feedback posts).dau)
    ∧ ((Metrics.computeMetrics now events feedback posts).churnRate
      = (Metrics.computeMetrics now
          (events.filter (fun e => e.created_at_ms ≠ none)) feedback posts).churnRate)
    ∧ ((∀ e ∈ events, truthyId e.user_pseudo_id ≠ none → e.created_at_ms ≠ none) →
        ∃ q, (Metrics.computeMetrics now events feedback posts).avgSessionLengthMin
          = some q) := by
  have h24 := Metrics.filter_window_parseable events (Metrics.inLast24h now)
    (Metrics.inLast24h_none now)
  have h7 := Metrics.filter_window_parseable events (Metrics.inChurnWindow now)
    (Metrics.inChurnWindow_none now)
  refine ⟨?_, ?_, ?_⟩
  · show Metrics.dau now events = Metrics.dau now _
    unfold Metrics.dau
    rw [h24]
  · show round1 (Metrics.churnRateRaw now events) = round1 (Metrics.churnRateRaw now _)
    unfold Metrics.churnRateRaw Metrics.churnedUsers Metrics.activeWeekAgo
      Metrics.activeLast24h
    rw [h24, h7]
  · intro H
    show ∃ q, Metrics.avgSessionLengthMin events = some q
    have hs := Metrics.sessionAgg_fst_some events H
    rcases hagg : Metrics.sessionAgg events with ⟨total, count⟩
    rw [hagg] at hs
    simp only at hs
    obtain ⟨ms, rfl⟩ : ∃ a, total = some a := Option.ne_none_iff_exists'.mp hs
    unfold Metrics.avgSessionLengthMin
    rw [hagg]
    by_cases hc : count > 0
    · exact ⟨round1 ((ms : ℚ) / (count : ℚ) / 60000), by simp [hc]⟩
    · exact ⟨0, by simp [hc]⟩

/-- Witness for `malformed_rows_amended` at a concrete parseable input. -/
theorem malformed_rows_amended_witness :
    ∃ q, (Metrics.computeMetrics 0 Metrics.exSessions [] []).avgSessionLengthMin
      = some q :=
  (malformed_rows_amended 0 Metrics.exSessions [] []).2.2 (by decide)

/-! ## C7 — day-1 retention: first-visit map lemmas -/

namespace Metrics

theorem lookup_setKeyT_self (m : List (String × TVal)) (k : String) (v : TVal) :
    (fvStep.setKeyT m k v).lookup k = some v := by
  induction m with
  | nil => simp [fvStep.setKeyT, List.lookup_cons]
  | cons p rest ih =>
      obtain ⟨k₀, v₀⟩ := p
      by_cases h : k₀ = k
      · simp [fvStep.setKeyT, h, List.lookup_cons]
      · have hb : (k == k₀) = false := beq_eq_false_iff_ne.mpr (Ne.symm h)
        simp [fvStep.setKeyT, h, List.lookup_cons, hb, ih]

theorem lookup_setKeyT_ne (m : List (String × TVal)) (k k' : String) (v : TVal)
    (h : k' ≠ k) : (fvStep.setKeyT m k v).lookup k' = m.lookup k' := by
  have hb : (k' == k) = false := beq_eq_false_iff_ne.mpr h
  induction m with
  | nil => simp [fvStep.setKeyT, List.lookup_cons, hb]
  | cons p rest ih =>
      obtain ⟨k₀, v₀⟩ := p
      by_cases hk : k₀ = k
      · subst hk
        simp [fvStep.setKeyT, List.lookup_cons, hb, ih]
      · by_cases hk' : k' = k₀
        · simp [fvStep.setKeyT, hk, List.lookup_cons, hk', ih]
        · have hb' : (k' == k₀) = false := beq_eq_false_iff_ne.mpr hk'
          simp [fvStep.setKeyT, hk, List.lookup_cons, hb', ih]

theorem keys_setKeyT (m : List (String × TVal)) (k : String) (v : TVal)
    (hk : (m.lookup k).isSome) :
    (fvStep.setKeyT m k v).map Prod.fst = m.map Prod.fst := by
  induction m with
  | nil => simp [List.lookup_nil] at hk
  | cons p rest ih =>
      obtain ⟨k₀, v₀⟩ := p
      by_cases h : k₀ = k
      · simp [fvStep.setKeyT, h]
      · have hb : (k == k₀) = false := beq_eq_false_iff_ne.mpr (Ne.symm h)
        rw [List.lookup_cons] at hk
        simp only [hb] at hk
        simp [fvStep.setKeyT, h, ih hk]

theorem lookup_isSome_iff_mem_keys (m : List (String × TVal)) (u : String) :
    (m.lookup u).isSome = true ↔ u ∈ m.map Prod.fst := by
  induction m with
  | nil => simp [List.lookup_nil]
  | cons p rest ih =>
      obtain ⟨k₀, v₀⟩ := p
      by_cases h : u = k₀
      · subst h
        simp [List.lookup_cons]
      · have hb : (u == k₀) = false := beq_eq_false_iff_ne.mpr h
        simp [List.lookup_cons, hb, ih, h]

theorem lookup_append_single_self (m : List (String × TVal)) (k : String)
    (v : TVal) (h : m.lookup k = none) : (m ++ [(k, v)]).lookup k = some v := by
  induction m with
  | nil => simp [List.lookup_cons]
  | cons p rest ih =>
      obtain ⟨k₀, v₀⟩ := p
      rw [List.lookup_cons] at h
      rcases hb : (k == k₀) with _ | _
      · simp only [hb] at h
        simp [List.lookup_cons, hb, ih h]
      · simp [hb] at h

theorem lookup_append_single_ne (m : List (String × TVal)) (k u : String)
    (v : TVal) (h : u ≠ k) : (m ++ [(k, v)]).lookup u = m.lookup u := by
  have hb : (u == k) = false := beq_eq_false_iff_ne.mpr h
  induction m with
  | nil => simp [List.lookup_cons, hb]
  | cons p rest ih =>
      obtain ⟨k₀, v₀⟩ := p
      rcases hb' : (u == k₀) with _ | _
      · simp [List.lookup_cons, hb', ih]
      · simp [List.lookup_cons, hb']

theorem min?_append_singleton (l : List Int) (t : Int) :
    (l ++ [t]).min? = some (match l.min? with | none => t | some m => min m t) := by
  cases l with
  | nil => simp [List.min?]
  | cons x xs => simp [List.min?, List.foldl_append]

end Metrics

namespace Metrics

theorem fvStep_irrelevant (m : List (String × TVal)) (e : RawEvent)
    (h : e.event_name ≠ "first_visit" ∨ truthyId e.user_pseudo_id = none) :
    fvStep m e = m := by
  unfold fvStep
  rcases h with h | h
  · rw [if_neg h]
  · by_cases hname : e.event_name = "first_visit"
    · rw [if_pos hname, h]
    · rw [if_neg hname]

theorem fvStep_absent (m : List (String × TVal)) (e : RawEvent) (u' : String)
    (hname : e.event_name = "first_visit")
    (htr : truthyId e.user_pseudo_id = some u') (hl : m.lookup u' = none) :
    fvStep m e = m ++ [(u', e.created_at_ms)] := by
  unfold fvStep
  rw [if_pos hname, htr]
  simp only [hl]

theorem fvStep_present (m : List (String × TVal)) (e : RawEvent) (u' : String)
    (prev : TVal) (hname : e.event_name = "first_visit")
    (htr : truthyId e.user_pseudo_id = some u') (hl : m.lookup u' = some prev) :
    fvStep m e = if jsFalsy prev || nltB e.created_at_ms prev then
      fvStep.setKeyT m u' e.created_at_ms else m := by
  unfold fvStep
  rw [if_pos hname, htr]
  simp only [hl]

theorem fvTimesInt_append_irrelevant (es : List RawEvent) (e : RawEvent)
    (h : e.event_name ≠ "first_visit" ∨ truthyId e.user_pseudo_id = none) :
    ∀ u, fvTimesInt (es ++ [e]) u = fvTimesInt es u := by
  intro u
  unfold fvTimesInt
  rw [List.filterMap_append]
  rcases h with h | h
  · simp [h]
  · by_cases hname : e.event_name = "first_visit"
    · simp [hname, h]
    · simp [hname]

theorem fvTimesInt_append_rel (es : List RawEvent) (e : RawEvent) (u' : String)
    (t' : Int) (hname : e.event_name = "first_visit")
    (htr : truthyId e.user_pseudo_id = some u')
    (hct : e.created_at_ms = some t') :
    ∀ u, fvTimesInt (es ++ [e]) u
      = fvTimesInt es u ++ (if u' = u then [t'] else []) := by
  intro u
  unfold fvTimesInt
  rw [List.filterMap_append]
  by_cases hu : u' = u
  · simp [hname, htr, hct, hu]
  · simp [hname, htr, hct, hu]

end Metrics

namespace Metrics

theorem fvTimesInt_ne_zero (events : List RawEvent) (u : String)
    (Hfv : ∀ e ∈ events, e.event_name = "first_visit" →
      truthyId e.user_pseudo_id ≠ none → ∃ t, e.created_at_ms = some t ∧ t ≠ 0) :
    ∀ t, t ∈ fvTimesInt events u → t ≠ 0 := by
  intro t ht
  unfold fvTimesInt at ht
  rw [List.mem_filterMap] at ht
  obtain ⟨e, he, hm⟩ := ht
  by_cases hname : e.event_name = "first_visit"
  · rw [if_pos hname] at hm
    rcases htr : truthyId e.user_pseudo_id with _ | v
    · rw [htr] at hm
      simp at hm
    · rw [htr] at hm
      by_cases hv : v = u
      · simp only [hv, if_true] at hm
        obtain ⟨t'', hct, ht0⟩ := Hfv e he hname (by rw [htr]; simp)
        rw [hct] at hm
        obtain rfl := Option.some.inj hm
        exact ht0
      · simp [hv] at hm
  · rw [if_neg hname] at hm
    simp at hm

theorem min?_ne_zero (l : List Int) (m : Int) (hm : l.min? = some m)
    (h : ∀ t ∈ l, t ≠ 0) : m ≠ 0 :=
  h m (List.min?_mem min_choice hm)

theorem firstVisitByUser_spec (events : List RawEvent)
    (Hfv : ∀ e ∈ events, e.event_name = "first_visit" →
      truthyId e.user_pseudo_id ≠ none → ∃ t, e.created_at_ms = some t ∧ t ≠ 0) :
    ((firstVisitByUser events).map Prod.fst).Nodup
    ∧ ∀ u, (firstVisitByUser events).lookup u
        = ((fvTimesInt events u).min?).map some := by
  induction events using List.reverseRecOn with
  | nil =>
      refine ⟨by simp [firstVisitByUser], ?_⟩
      intro u
      simp [firstVisitByUser, fvTimesInt]
  | append_singleton es e ih =>
      have Hes : ∀ e' ∈ es, e'.event_name = "first_visit" →
          truthyId e'.user_pseudo_id ≠ none →
          ∃ t, e'.created_at_ms = some t ∧ t ≠ 0 :=
        fun e' he' => Hfv e' (by simp [he'])
      obtain ⟨hnodup, hlook⟩ := ih Hes
      have hfold : firstVisitByUser (es ++ [e]) = fvStep (firstVisitByUser es) e := by
        simp [firstVisitByUser, List.foldl_append]
      by_cases hname : e.event_name = "first_visit"
      · rcases htr : truthyId e.user_pseudo_id with _ | u'
        · rw [hfold, fvStep_irrelevant _ _ (Or.inr htr)]
          refine ⟨hnodup, ?_⟩
          intro u
          rw [fvTimesInt_append_irrelevant es e (Or.inr htr) u]
          exact hlook u
        · obtain ⟨t', hct, ht0⟩ := Hfv e (by simp) hname (by rw [htr]; simp)
          rcases hl : (firstVisitByUser es).lookup u' with _ | prev
          · -- key absent: append
            rw [hfold, fvStep_absent _ e u' hname htr hl]
            have hmemk : u' ∉ (firstVisitByUser es).map Prod.fst := by
              intro hmem
              have := (lookup_isSome_iff_mem_keys _ u').mpr hmem
              rw [hl] at this
              simp at this
            have hempty : fvTimesInt es u' = [] := by
              have h1 := hlook u'
              rw [hl] at h1
              rcases hmin : (fvTimesInt es u').min? with _ | m0
              · exact List.min?_eq_none_iff.mp hmin
              · rw [hmin] at h1
                simp at h1
            constructor
            · simp only [List.map_append, List.map_cons, List.map_nil]
              rw [List.nodup_append]
              exact ⟨hnodup, List.nodup_singleton u', by simpa using hmemk⟩
            · intro u
              rw [fvTimesInt_append_rel es e u' t' hname htr hct u]
              by_cases hu : u' = u
              · subst hu
                rw [lookup_append_single_self _ _ _ hl, hempty]
                simp [List.min?, hct]
              · rw [lookup_append_single_ne _ _ _ _ (fun he' => hu he'.symm)]
                rw [if_neg hu, List.append_nil]
                exact hlook u
          · -- key present: prev = some m0 with m0 the running min
            have h1 := hlook u'
            rw [hl] at h1
            rcases hmin : (fvTimesInt es u').min? with _ | m0
            · rw [hmin] at h1
              simp at h1
            · rw [hmin] at h1
              simp only [Option.map_some'] at h1
              obtain rfl : prev = some m0 := (Option.some.inj h1)
              have hm0 : m0 ≠ 0 :=
                min?_ne_zero _ _ hmin (fvTimesInt_ne_zero es u' Hes)
              have hfalsy : jsFalsy (some m0) = false := by
                simp [jsFalsy, hm0]
              rw [hfold, fvStep_present _ e u' (some m0) hname htr hl, hct]
              by_cases hlt : t' < m0
              · have hcond : (jsFalsy (some m0) || nltB (some t') (some m0)) = true := by
                  simp [hfalsy, nltB, hlt]
                rw [if_pos hcond]
                constructor
                · rw [keys_setKeyT _ _ _ (by rw [hl]; rfl)]
                  exact hnodup
                · intro u
                  rw [fvTimesInt_append_rel es e u' t' hname htr hct u]
                  by_cases hu : u' = u
                  · subst hu
                    rw [lookup_setKeyT_self, if_pos rfl, min?_append_singleton, hmin]
                    simp [min_eq_right (le_of_lt hlt)]
                  · rw [lookup_setKeyT_ne _ _ _ _ (fun he' => hu he'.symm)]
                    rw [if_neg hu, List.append_nil]
                    exact hlook u
              · have hcond : (jsFalsy (some m0) || nltB (some t') (some m0)) = false := by
                  simp [hfalsy, nltB, hlt]
                rw [if_neg (by simp [hcond])]
                refine ⟨hnodup, ?_⟩
                intro u
                rw [fvTimesInt_append_rel es e u' t' hname htr hct u]
                by_cases hu : u' = u
                · subst hu
                  rw [if_pos rfl, min?_append_singleton, hmin, hl]
                  simp [min_eq_left (not_lt.mp hlt)]
                · rw [if_neg hu, List.append_nil]
                  exact hlook u
      · rw [hfold, fvStep_irrelevant _ _ (Or.inl hname)]
        refine ⟨hnodup, ?_⟩
        intro u
        rw [fvTimesInt_append_irrelevant es e (Or.inl hname) u]
        exact hlook u

end Metrics

namespace Metrics

theorem day1Counts_countP (now : Int) (events : List RawEvent) :
    day1Counts now events
      = ((firstVisitByUser events).countP
           (fun p => !nltB (nsub (some now) p.2) (some MS_24H)),
         (firstVisitByUser events).countP
           (fun p => !nltB (nsub (some now) p.2) (some MS_24H)
             && hasReturn events p.1 p.2)) := by
  unfold day1Counts
  have key : ∀ (L : List (String × TVal)) (a b : Nat),
      L.foldl (fun acc p =>
        if nltB (nsub (some now) p.2) (some MS_24H) then acc
        else (acc.1 + 1, if hasReturn events p.1 p.2 then acc.2 + 1 else acc.2))
        (a, b)
      = (a + L.countP (fun p => !nltB (nsub (some now) p.2) (some MS_24H)),
         b + L.countP (fun p => !nltB (nsub (some now) p.2) (some MS_24H)
            && hasReturn events p.1 p.2)) := by
    intro L
    induction L with
    | nil => intro a b; simp
    | cons p rest ih =>
        intro a b
        simp only [List.foldl_cons, List.countP_cons]
        by_cases hskip : nltB (nsub (some now) p.2) (some MS_24H) = true
        · rw [if_pos hskip, ih a b]
          simp [hskip]
        · rw [if_neg hskip]
          have hskip' : (!nltB (nsub (some now) p.2) (some MS_24H)) = true := by
            rw [Bool.not_eq_true']
            exact Bool.eq_false_iff.mpr hskip
          by_cases hr : hasReturn events p.1 p.2 = true
          · rw [if_pos hr, ih (a + 1) (b + 1)]
            refine Prod.ext ?_ ?_
            · simp [hskip']
              omega
            · simp [hskip', hr]
              omega
          · rw [if_neg hr, ih (a + 1) b]
            refine Prod.ext ?_ ?_
            · simp [hskip']
              omega
            · simp [hskip', hr]
  rw [key]
  simp

theorem lookup_eq_of_mem (L : List (String × TVal))
    (hnd : (L.map Prod.fst).Nodup) (p : String × TVal) (hp : p ∈ L) :
    L.lookup p.1 = some p.2 := by
  induction L with
  | nil => simp at hp
  | cons q rest ih =>
      obtain ⟨qk, qv⟩ := q
      rw [List.map_cons, List.nodup_cons] at hnd
      rcases List.mem_cons.mp hp with heq | hp'
      · subst heq
        simp [List.lookup_cons]
      · have hne : p.1 ≠ qk := by
          intro he
          have hmm : p.1 ∈ rest.map Prod.fst := List.mem_map_of_mem Prod.fst hp'
          rw [he] at hmm
          exact hnd.1 hmm
        have hb : (p.1 == qk) = false := beq_eq_false_iff_ne.mpr hne
        rw [List.lookup_cons]
        simp only [hb]
        exact ih hnd.2 hp'

theorem mem_fvUids_iff (events : List RawEvent) (u : String)
    (Hfv : ∀ e ∈ events, e.event_name = "first_visit" →
      truthyId e.user_pseudo_id ≠ none → ∃ t, e.created_at_ms = some t ∧ t ≠ 0) :
    u ∈ fvUids events ↔ fvTimesInt events u ≠ [] := by
  constructor
  · intro hu
    unfold fvUids at hu
    rw [List.mem_filterMap] at hu
    obtain ⟨e, he, hm⟩ := hu
    by_cases hname : e.event_name = "first_visit"
    · rw [if_pos hname] at hm
      obtain ⟨t, hct, _⟩ := Hfv e he hname (by rw [hm]; simp)
      have : t ∈ fvTimesInt events u := by
        unfold fvTimesInt
        rw [List.mem_filterMap]
        exact ⟨e, he, by simp [hname, hm, hct]⟩
      intro hempty
      rw [hempty] at this
      simp at this
    · rw [if_neg hname] at hm
      simp at hm
  · intro hne
    rcases hx : fvTimesInt events u with _ | ⟨t, rest⟩
    · exact absurd hx hne
    · have ht : t ∈ fvTimesInt events u := by rw [hx]; simp
      unfold fvTimesInt at ht
      rw [List.mem_filterMap] at ht
      obtain ⟨e, he, hm⟩ := ht
      by_cases hname : e.event_name = "first_visit"
      · rw [if_pos hname] at hm
        rcases htr : truthyId e.user_pseudo_id with _ | v
        · rw [htr] at hm
          simp at hm
        · rw [htr] at hm
          by_cases hv : v = u
          · unfold fvUids
            rw [List.mem_filterMap]
            exact ⟨e, he, by rw [if_pos hname, htr, hv]⟩
          · simp [hv] at hm
      · rw [if_neg hname] at hm
        simp at hm

end Metrics

namespace Metrics

theorem day1_sets_eq (now : Int) (events : List RawEvent)
    (Hfv : ∀ e ∈ events, e.event_name = "first_visit" →
      truthyId e.user_pseudo_id ≠ none → ∃ t, e.created_at_ms = some t ∧ t ≠ 0) :
    day1Counts now events
      = (((fvUids events).toFinset.filter (fun u =>
            (match (fvTimesInt events u).min? with
             | some t => decide (now - t ≥ MS_24H)
             | none => false) = true)).card,
         ((fvUids events).toFinset.filter (fun u =>
            ((match (fvTimesInt events u).min? with
              | some t => decide (now - t ≥ MS_24H)
              | none => false)
             && (match (fvTimesInt events u).min? with
                 | some t => hasReturn events u (some t)
                 | none => false)) = true)).card) := by
  obtain ⟨hnodup, hlook⟩ := firstVisitByUser_spec events Hfv
  have hval : ∀ p ∈ firstVisitByUser events,
      ∃ t0, (fvTimesInt events p.1).min? = some t0 ∧ p.2 = some t0 := by
    intro p hp
    have h1 := lookup_eq_of_mem _ hnodup p hp
    rw [hlook p.1] at h1
    rcases hmin : (fvTimesInt events p.1).min? with _ | t0
    · rw [hmin] at h1
      simp at h1
    · rw [hmin] at h1
      simp only [Option.map_some'] at h1
      exact ⟨t0, rfl, (Option.some.inj h1).symm⟩
  have hkeys : ((firstVisitByUser events).map Prod.fst).toFinset
      = (fvUids events).toFinset := by
    ext u
    rw [List.mem_toFinset, List.mem_toFinset]
    rw [← lookup_isSome_iff_mem_keys, hlook u]
    rcases hmin : (fvTimesInt events u).min? with _ | t0
    · simp only [Option.map_none', Option.isSome_none]
      constructor
      · intro hfalse
        exact absurd hfalse (by simp)
      · intro hmem
        exact absurd (List.min?_eq_none_iff.mp hmin)
          ((mem_fvUids_iff events u Hfv).mp hmem)
    · simp only [Option.map_some', Option.isSome_some]
      constructor
      · intro _
        apply (mem_fvUids_iff events u Hfv).mpr
        intro hempty
        rw [hempty] at hmin
        simp [List.min?] at hmin
      · intro _
        trivial
  rw [day1Counts_countP]
  have hE : (firstVisitByUser events).countP
      (fun p => !nltB (nsub (some now) p.2) (some MS_24H))
      = (firstVisitByUser events).countP (fun p =>
          match (fvTimesInt events p.1).min? with
          | some t => decide (now - t ≥ MS_24H)
          | none => false) := by
    rw [List.countP_eq_length_filter, List.countP_eq_length_filter]
    congr 1
    apply List.filter_congr
    intro p hp
    obtain ⟨t0, hmin, hp2⟩ := hval p hp
    rw [hmin, hp2]
    rcases lt_or_ge (now - t0) MS_24H with h | h
    · simp [nsub, nltB, h, not_le.mpr h]
    · simp [nsub, nltB, not_lt.mpr h, h]
  have hR : (firstVisitByUser events).countP
      (fun p => !nltB (nsub (some now) p.2) (some MS_24H)
        && hasReturn events p.1 p.2)
      = (firstVisitByUser events).countP (fun p =>
          ((match (fvTimesInt events p.1).min? with
            | some t => decide (now - t ≥ MS_24H)
            | none => false)
           && (match (fvTimesInt events p.1).min? with
               | some t => hasReturn events p.1 (some t)
               | none => false))) := by
    rw [List.countP_eq_length_filter, List.countP_eq_length_filter]
    congr 1
    apply List.filter_congr
    intro p hp
    obtain ⟨t0, hmin, hp2⟩ := hval p hp
    rw [hmin, hp2]
    rcases lt_or_ge (now - t0) MS_24H with h | h
    · simp [nsub, nltB, h, not_le.mpr h]
    · simp [nsub, nltB, not_lt.mpr h, h]
  have h1 : (firstVisitByUser events).countP (fun p =>
        match (fvTimesInt events p.1).min? with
        | some t => decide (now - t ≥ MS_24H)
        | none => false)
      = ((firstVisitByUser events).map Prod.fst).countP (fun u =>
        match (fvTimesInt events u).min? with
        | some t => decide (now - t ≥ MS_24H)
        | none => false) := by
    rw [List.countP_map]
    rfl
  have h2 : (firstVisitByUser events).countP (fun p =>
        ((match (fvTimesInt events p.1).min? with
          | some t => decide (now - t ≥ MS_24H)
          | none => false)
         && (match (fvTimesInt events p.1).min? with
             | some t => hasReturn events p.1 (some t)
             | none => false)))
      = ((firstVisitByUser events).map Prod.fst).countP (fun u =>
        ((match (fvTimesInt events u).min? with
          | some t => decide (now - t ≥ MS_24H)
          | none => false)
         && (match (fvTimesInt events u).min? with
             | some t => hasReturn events u (some t)
             | none => false))) := by
    rw [List.countP_map]
    rfl
  rw [hE, hR, h1, h2, List.countP_eq_length_filter, List.countP_eq_length_filter,
    nodup_filter_length _ hnodup, nodup_filter_length _ hnodup, hkeys]

end Metrics

/-- C7 counterexample: an identity with `first_visit` events at the epoch
(time 0) and one hour later, plus a return event 24.5 hours after the
epoch.  The claim's `t0` is the earliest time 0, making the identity
returned (retention 100); the code treats the stored 0 as falsy
(`!firstVisitByUser[uid]`), overwrites it with the later first visit, and
reports the identity as not returned (retention 0). -/
theorem day1_earliest_counterexample :
    (Metrics.computeMetrics 180000000 Metrics.exEpochFv [] []).day1Retention = 0
    ∧ Metrics.claimDay1Retention 180000000 Metrics.exEpochFv = 100 :=
  ⟨by with_unfolding_all rfl, by with_unfolding_all rfl⟩

/-- C7 (amended): provided every `first_visit` event with a truthy
pseudo-id has a parseable timestamp different from the epoch (time 0),
day-1 retention is exactly the claimed formula: per identity, `t0` is the
earliest `first_visit` time, eligibility is `now − t0 ≥ 24h`, a return is
a non-`first_visit` event of that identity in `[t0+24h, t0+48h)`, and the
rate is returned / eligible × 100 rounded to 1 decimal, `0` with no
eligible identity. -/
theorem day1_retention_amended (now : Int) (events : List Metrics.RawEvent)
    (feedback : List Metrics.RawFeedback) (posts : List Metrics.RawPost)
    (Hfv : ∀ e ∈ events, e.event_name = "first_visit" →
      truthyId e.user_pseudo_id ≠ none → ∃ t, e.created_at_ms = some t ∧ t ≠ 0) :
    (Metrics.computeMetrics now events feedback posts).day1Retention
      = Metrics.claimDay1Retention now events := by
  show round1 (Metrics.day1RetentionRaw now events) = _
  unfold Metrics.day1RetentionRaw
  rw [Metrics.day1_sets_eq now events Hfv]
  unfold Metrics.claimDay1Retention
  have hfilter : (Metrics.fvUids events).toFinset.filter (fun u =>
        ((match (Metrics.fvTimesInt events u).min? with
          | some t => decide (now - t ≥ Metrics.MS_24H)
          | none => false)
         && (match (Metrics.fvTimesInt events u).min? with
             | some t => Metrics.hasReturn events u (some t)
             | none => false)) = true)
      = ((Metrics.fvUids events).toFinset.filter (fun u =>
          (match (Metrics.fvTimesInt events u).min? with
           | some t => decide (now - t ≥ Metrics.MS_24H)
           | none => false) = true)).filter (fun u =>
          (match (Metrics.fvTimesInt events u).min? with
           | some t => Metrics.hasReturn events u (some t)
           | none => false) = true) := by
    rw [Finset.filter_filter]
    apply Finset.filter_congr
    intro u _
    simp [Bool.and_eq_true]
  rw [hfilter]
  simp only []
  by_cases hE0 : ((Metrics.fvUids events).toFinset.filter (fun u =>
      (match (Metrics.fvTimesInt events u).min? with
       | some t => decide (now - t ≥ Metrics.MS_24H)
       | none => false) = true)).card > 0
  · rw [if_pos hE0, if_pos hE0]
  · rw [if_neg hE0, if_neg hE0]
    simp [round1]

/-- Witness for `day1_retention_amended`: one identity with a nonzero
first visit 30 hours ago and a qualifying return 25 hours after it;
retention is 100.0 under both the code and the claimed formula. -/
theorem day1_retention_amended_witness :
    (Metrics.computeMetrics 108000000
        [Metrics.mkEv "1" "first_visit" (some "u") (some 1),
         Metrics.mkEv "2" "session_start" (some "u") (some 90000001)] [] []).day1Retention
      = Metrics.claimDay1Retention 108000000
        [Metrics.mkEv "1" "first_visit" (some "u") (some 1),
         Metrics.mkEv "2" "session_start" (some "u") (some 90000001)]
    ∧ Metrics.claimDay1Retention 108000000
        [Metrics.mkEv "1" "first_visit" (some "u") (some 1),
         Metrics.mkEv "2" "session_start" (some "u") (some 90000001)] = 100 := by
  constructor
  · exact day1_retention_amended 108000000 _ [] [] (by decide)
  · with_unfolding_all rfl
